import Mathlib

/-!
# The V8Object native bridge

A shallow embedding of `android/runtime/v8/src/native/V8Object.cpp`: the five
JNI entry points `nativeSetProperty`, `nativeFireEvent`, `nativeCallProperty`,
`nativeRelease` and `nativeSetWindow`.

The entry points are glue between three collaborators whose code is outside the
file: the script engine (V8), the value marshaling layer (`TypeConverter`) and
the diagnostic channel (`V8Util`).  They are embedded as follows.

* Native memory is a finite map from addresses to live `Proxy` records.  A
  `jlong` that is cast to `Proxy*` and dereferenced must be the address of a
  live record; anything else is a `Fault`.
* The script heap is a finite map from object identities to objects.  An object
  is a list of named slots; a slot holds a data value or the native accessor
  pair `(Proxy::getProperty, Proxy::onPropertyChanged)`.  Inherited properties
  are taken as already flattened into the slots of the object.
* Calling a script function is a parameter (`Engine.call`): it may change the
  whole world and ends by returning a value, by throwing, or with no value.
* Every call an entry point makes to a collaborator is recorded, in order, in
  the trace it returns.
-/

namespace V8Object

/-! ## Finite maps as association lists -/

/-- The entry stored under `k`, the first one when there are several. -/
def find {κ α : Type} [DecidableEq κ] (k : κ) : List (κ × α) → Option α
  | [] => none
  | (k1, a) :: rest => if k1 = k then some a else find k rest

/-- All entries except those stored under `k`. -/
def remove {κ α : Type} [DecidableEq κ] (k : κ) : List (κ × α) → List (κ × α)
  | [] => []
  | (k1, a) :: rest => if k1 = k then remove k rest else (k1, a) :: remove k rest

/-- Bind `k` to `a`, replacing whatever was stored under `k`. -/
def store {κ α : Type} [DecidableEq κ] (k : κ) (a : α) (m : List (κ × α)) : List (κ × α) :=
  remove k m ++ [(k, a)]

/-- Number of entries stored under `k`. -/
def entries {κ α : Type} [DecidableEq κ] (k : κ) : List (κ × α) → Nat
  | [] => 0
  | (k1, _) :: rest => (if k1 = k then 1 else 0) + entries k rest

/-! ## Data model -/

/-- A property key of the script engine (`v8::Name`): a string or a symbol. -/
inductive Name where
  | string (s : String)
  | symbol (id : Nat)
  deriving DecidableEq, Repr

/-- A script value (`v8::Value`).  Objects (functions included) are referred to
by identity. -/
inductive JsValue where
  | undefined
  | null
  | bool (b : Bool)
  | number (n : Int)
  | string (s : String)
  | object (id : Nat)
  deriving DecidableEq, Repr

/-- One slot of a script object: a data value, or the accessor pair
`(Proxy::getProperty, Proxy::onPropertyChanged)` installed by `SetAccessor`. -/
inductive Slot where
  | data (value : JsValue)
  | accessor
  deriving DecidableEq, Repr

/-- A script object: whether it is callable, and its slots. -/
structure JsObject where
  isFunction : Bool
  slots : List (Name × Slot)
  deriving DecidableEq, Repr

/-- The native record `titanium::Proxy` (declared in Proxy.h, outside this
file): the persistent reference to its script object and the detached flag
read by `isDetached()`. -/
structure Proxy where
  jsObject : Nat
  detached : Bool
  deriving DecidableEq, Repr

/-- What the entry points act on: native memory (address to live proxy) and the
script heap (identity to object). -/
structure World where
  proxies : List (Nat × Proxy)
  heap : List (Nat × JsObject)
  deriving DecidableEq, Repr

/-- Undefined behaviour of the C++ code, made explicit. -/
inductive Fault where
  /-- A `Proxy*` that is null or does not point to a live proxy was dereferenced. -/
  | invalidPointer (ptr : Nat)
  /-- A persistent reference was turned into a local one but its object is gone. -/
  | emptyHandle (id : Nat)
  /-- The unchecked cast `As<Object>()` was applied to a value that is no object. -/
  | invalidCast (v : JsValue)
  deriving DecidableEq, Repr

/-- How `Function::Call` under a `TryCatch` ends: with a value, with a caught
exception (`HasCaught()`), or with an empty result and nothing caught. -/
inductive CallResult where
  | returned (v : JsValue)
  | threw (exception : JsValue)
  | empty
  deriving DecidableEq, Repr

/-- A call made to a collaborator. -/
inductive Event where
  /-- `TypeConverter::javaObjectToJsValue(ref)`. -/
  | javaObjectToJsValue (ref : Nat)
  /-- `TypeConverter::javaHashMapToJsValue(ref)`. -/
  | javaHashMapToJsValue (ref : Nat)
  /-- `TypeConverter::javaObjectArrayToJsArguments(array)`. -/
  | javaObjectArrayToJsArguments (array : List Nat)
  /-- `TypeConverter::jsValueToJavaObject(v)`. -/
  | jsValueToJavaObject (v : JsValue)
  /-- `function->Call(context, receiver, argc, argv)`, with the world it ran in. -/
  | call (function : Nat) (receiver : JsValue) (argv : List JsValue) (world : World)
  /-- The setter `Proxy::onPropertyChanged` ran for `holder[key] = v`. -/
  | onPropertyChanged (holder : Nat) (key : Name) (v : JsValue)
  /-- `V8Util::openJSErrorDialog(isolate, tryCatch)`. -/
  | openJSErrorDialog (exception : JsValue)
  /-- `V8Util::reportException(isolate, tryCatch)`. -/
  | reportException (exception : JsValue)
  deriving DecidableEq, Repr

/-- The constants `Proxy::propertiesSymbol`, `EventEmitter::emitSymbol` and
`JNIUtil::undefinedObject`.  They are initialised outside this file, so they are
parameters. -/
structure Symbols where
  /-- The key under which an object keeps its companion property map. -/
  propertiesSymbol : Name
  /-- The key of the event-dispatch function. -/
  emitSymbol : Name
  /-- The managed reference that stands for "undefined". -/
  undefinedObject : Nat

/-- The marshaling layer `TypeConverter` (outside this file), as far as the
entry points use it.  A managed reference (`jobject`) is a number, `0` for
`NULL`.  Strings, booleans and integers are marshaled to the script value of
the same content and are not parameters. -/
structure TypeConverter where
  /-- The script value a managed object converts to. -/
  javaObjectToJsValue : Nat → JsValue
  /-- The fields of the script object a managed map converts to. -/
  javaHashMapToJsValue : Nat → List (String × JsValue)
  /-- The script arguments a managed array converts to. -/
  javaObjectArrayToJsArguments : List Nat → List JsValue
  /-- The managed object a script value converts to. -/
  jsValueToJavaObject : JsValue → Nat

/-- The script engine: what calling function object `f` with the given receiver
and arguments does to the world, and how the call ends. -/
structure Engine where
  call : Nat → JsValue → List JsValue → World → CallResult × World

/-- What an entry point hands back: its return value, the world it leaves, and
the collaborator calls it made. -/
structure Outcome (α : Type) where
  ret : α
  world : World
  trace : List Event

/-! ## Script engine primitives -/

/-- The slots of object `id` (none for an identity that is not in the heap). -/
def slotsOf (w : World) (id : Nat) : List (Name × Slot) :=
  match find id w.heap with
  | some o => o.slots
  | none => []

/-- Replace the slots of object `id` by `f` of them. -/
def mapSlots (id : Nat) (f : List (Name × Slot) → List (Name × Slot)) :
    List (Nat × JsObject) → List (Nat × JsObject)
  | [] => []
  | (i, o) :: rest =>
    if i = id then (i, { o with slots := f o.slots }) :: mapSlots id f rest
    else (i, o) :: mapSlots id f rest

/-- The data value in slot `key` of object `id`, if that slot is a data slot. -/
def dataOf (w : World) (id : Nat) (key : Name) : Option JsValue :=
  match find key (slotsOf w id) with
  | some (.data v) => some v
  | _ => none

/-- Modelled from the spec: the getter `Proxy::getProperty` (Proxy.cpp is not
among the sources), which "on get, returns the stored logical value": the entry
for `key` in the companion map of the holder, undefined when there is none. -/
def getProperty (K : Symbols) (w : World) (holder : Nat) (key : Name) : JsValue :=
  match dataOf w holder K.propertiesSymbol with
  | some (.object c) => (dataOf w c key).getD .undefined
  | _ => .undefined

/-- The engine operation `object->Get(key)`: the data value of the slot, the
result of the getter for an accessor slot, undefined for a missing slot. -/
def get (K : Symbols) (w : World) (id : Nat) (key : Name) : JsValue :=
  match find key (slotsOf w id) with
  | some (.data v) => v
  | some .accessor => getProperty K w id key
  | none => .undefined

/-- Bind slot `key` of object `id` to the data value `v`. -/
def storeData (w : World) (id : Nat) (key : Name) (v : JsValue) : World :=
  { w with heap := mapSlots id (store key (.data v)) w.heap }

/-- Modelled from the spec: the setter `Proxy::onPropertyChanged` (Proxy.cpp is
not among the sources), which "on set, notifies the native side of the change":
the notification is recorded and the heap stays as it is. -/
def onPropertyChanged (w : World) (holder : Nat) (key : Name) (v : JsValue) :
    World × List Event :=
  (w, [.onPropertyChanged holder key v])

/-- The engine operation `object->Set(key, v)`: an accessor slot runs the setter,
any other slot is (re)bound to the data value. -/
def set (w : World) (id : Nat) (key : Name) (v : JsValue) : World × List Event :=
  match find key (slotsOf w id) with
  | some .accessor => onPropertyChanged w id key v
  | _ => (storeData w id key v, [])

/-- The engine operation `object->SetAccessor(key, Proxy::getProperty,
Proxy::onPropertyChanged)`: slot `key` becomes the accessor pair, replacing
whatever the slot held. -/
def setAccessor (w : World) (id : Nat) (key : Name) : World :=
  { w with heap := mapSlots id (store key .accessor) w.heap }

/-- The test `value->IsFunction()`. -/
def isFunction (w : World) : JsValue → Bool
  | .object id =>
    match find id w.heap with
    | some o => o.isFunction
    | none => false
  | _ => false

/-- The unchecked cast `value.As<Object>()`: the identity of the object the
value refers to. -/
def asObject (w : World) (v : JsValue) : Except Fault Nat :=
  match v with
  | .object id =>
    match find id w.heap with
    | some _ => .ok id
    | none => .error (.invalidCast v)
  | _ => .error (.invalidCast v)

/-- The cast `(titanium::Proxy*) ptr` followed by a use of the pointer. -/
def deref (w : World) (ptr : Nat) : Except Fault Proxy :=
  if ptr = 0 then .error (.invalidPointer ptr)
  else
    match find ptr w.proxies with
    | some proxy => .ok proxy
    | none => .error (.invalidPointer ptr)

/-- The call `proxy->handle(isolate)`: a local reference to the script object the
proxy owns. -/
def handle (w : World) (proxy : Proxy) : Except Fault Nat :=
  match find proxy.jsObject w.heap with
  | some _ => .ok proxy.jsObject
  | none => .error (.emptyHandle proxy.jsObject)

/-- The statement `delete proxy`: the record at `ptr` is no longer live (its
script object stays in the heap, for the collector). -/
def delete (w : World) (ptr : Nat) : World :=
  { w with proxies := remove ptr w.proxies }

/-- An identity no object of the heap has. -/
def freshId (heap : List (Nat × JsObject)) : Nat :=
  (heap.map Prod.fst).foldr max 0 + 1

/-- The shared opening of `nativeSetProperty`, `nativeFireEvent` and
`nativeSetWindow`: the script object of the proxy at `ptr` when `ptr != 0`,
else the conversion of the managed object, cast to an object. -/
def resolve (T : TypeConverter) (w : World) (ptr : Nat) (object : Nat) :
    Except Fault (Nat × List Event) :=
  if ptr ≠ 0 then do
    let proxy ← deref w ptr
    let jsObject ← handle w proxy
    pure (jsObject, [])
  else do
    let jsObject ← asObject w (T.javaObjectToJsValue object)
    pure (jsObject, [.javaObjectToJsValue object])

/-! ## The entry points -/

/-- The conversion `TypeConverter::javaHashMapToJsValue(data)`: a new plain
object that holds the fields of the managed map. -/
def javaHashMapToJsValue (T : TypeConverter) (w : World) (data : Nat) : Nat × World :=
  let id := freshId w.heap
  let fields := (T.javaHashMapToJsValue data).map fun e => (Name.string e.1, Slot.data e.2)
  (id, { w with heap := (id, { isFunction := false, slots := fields }) :: w.heap })

/-- `Java_org_appcelerator_kroll_runtime_v8_V8Object_nativeSetProperty`. -/
def nativeSetProperty (K : Symbols) (T : TypeConverter) (w : World)
    (object ptr : Nat) (name : String) (value : Nat) : Except Fault (Outcome Unit) := do
  let (jsObject, t0) ← resolve T w ptr object
  let properties ← asObject w (get K w jsObject K.propertiesSymbol)
  let jsName := Name.string name
  let jsValue := T.javaObjectToJsValue value
  let w1 := setAccessor w jsObject jsName
  let (w2, t1) := set w1 properties jsName jsValue
  pure { ret := (), world := w2, trace := t0 ++ [.javaObjectToJsValue value] ++ t1 }

/-- Lines 92-100 of `nativeFireEvent`: the source object of the event. -/
def resolveSource (T : TypeConverter) (w : World) (jEmitter emitter jsource sourcePtr : Nat) :
    Except Fault (Nat × List Event) :=
  if jsource = 0 ∨ jsource = jEmitter then pure (emitter, [])
  else if sourcePtr ≠ 0 then do
    let proxy ← deref w sourcePtr
    let source ← handle w proxy
    pure (source, [])
  else do
    let source ← asObject w (T.javaObjectToJsValue jsource)
    pure (source, [.javaObjectToJsValue jsource])

/-- Lines 104-117 of `nativeFireEvent`: the event payload `jsData`, built in the
heap from the managed map and the event metadata. -/
def buildPayload (T : TypeConverter) (w : World) (source data : Nat)
    (bubble reportSuccess : Bool) (code : Int) (errorMessage : Option String) :
    Nat × World × List Event :=
  let (jsData, w1) := javaHashMapToJsValue T w data
  let (w2, t2) := set w1 jsData (.string "bubbles") (.bool bubble)
  let (w3, t3) := set w2 jsData (.string "source") (.object source)
  let (w4, t4) :=
    if reportSuccess ∨ code ≠ 0 then
      let (wa, ta) := set w3 jsData (.string "success") (.bool (decide (code = 0)))
      let (wb, tb) := set wa jsData (.string "code") (.number code)
      (wb, ta ++ tb)
    else (w3, [])
  let (w5, t5) :=
    match errorMessage with
    | some message => set w4 jsData (.string "error") (.string message)
    | none => (w4, [])
  (jsData, w5, [.javaHashMapToJsValue data] ++ t2 ++ t3 ++ t4 ++ t5)

/-- `Java_org_appcelerator_kroll_runtime_v8_V8Object_nativeFireEvent`. -/
def nativeFireEvent (K : Symbols) (T : TypeConverter) (E : Engine) (w : World)
    (jEmitter ptr jsource sourcePtr : Nat) (event : String) (data : Nat)
    (bubble reportSuccess : Bool) (code : Int) (errorMessage : Option String) :
    Except Fault (Outcome Bool) := do
  let jsEvent := JsValue.string event
  let (emitter, t0) ← resolve T w ptr jEmitter
  let fireEventValue := get K w emitter K.emitSymbol
  if isFunction w fireEventValue = false then
    pure { ret := false, world := w, trace := t0 }
  else do
    let (source, t1) ← resolveSource T w jEmitter emitter jsource sourcePtr
    let fireEvent ← asObject w fireEventValue
    let (jsData, w1, t2) := buildPayload T w source data bubble reportSuccess code errorMessage
    let args := [jsEvent, .object jsData]
    let (result, w2) := E.call fireEvent (.object emitter) args w1
    let called := t0 ++ t1 ++ t2 ++ [.call fireEvent (.object emitter) args w1]
    match result with
    | .threw exception =>
      pure { ret := false, world := w2,
             trace := called ++ [.openJSErrorDialog exception, .reportException exception] }
    | .empty => pure { ret := false, world := w2, trace := called }
    | .returned v =>
      if v = .bool true then pure { ret := true, world := w2, trace := called }
      else pure { ret := false, world := w2, trace := called }

/-- `Java_org_appcelerator_kroll_runtime_v8_V8Object_nativeCallProperty`. -/
def nativeCallProperty (K : Symbols) (T : TypeConverter) (E : Engine) (w : World)
    (ptr : Nat) (propertyName : String) (args : Option (List Nat)) :
    Except Fault (Outcome Nat) := do
  let jsPropertyName := Name.string propertyName
  let proxy ← deref w ptr
  let object ← handle w proxy
  let property := get K w object jsPropertyName
  if isFunction w property = false then
    pure { ret := K.undefinedObject, world := w, trace := [] }
  else do
    let (argv, t0) :=
      match args with
      | some array => (T.javaObjectArrayToJsArguments array, [Event.javaObjectArrayToJsArguments array])
      | none => ([], [])
    let function ← asObject w property
    let (returnValue, w1) := E.call function (.object object) argv w
    let called := t0 ++ [.call function (.object object) argv w]
    match returnValue with
    | .threw exception =>
      pure { ret := K.undefinedObject, world := w1,
             trace := called ++ [.openJSErrorDialog exception, .reportException exception] }
    | .empty => pure { ret := K.undefinedObject, world := w1, trace := called }
    | .returned v =>
      pure { ret := T.jsValueToJavaObject v, world := w1,
             trace := called ++ [.jsValueToJavaObject v] }

/-- `Java_org_appcelerator_kroll_runtime_v8_V8Object_nativeRelease`.  Inside the
outer test the pointer is not null, so the inner test `proxy &&` always passes
and `proxy->isDetached()` is always evaluated. -/
def nativeRelease (w : World) (refPointer : Nat) : Except Fault (Outcome Bool) :=
  if refPointer ≠ 0 then do
    let proxy ← deref w refPointer
    if proxy.detached then
      pure { ret := true, world := delete w refPointer, trace := [] }
    else
      pure { ret := false, world := w, trace := [] }
  else
    pure { ret := false, world := w, trace := [] }

/-- `Java_org_appcelerator_kroll_runtime_v8_V8Object_nativeSetWindow`. -/
def nativeSetWindow (K : Symbols) (T : TypeConverter) (E : Engine) (w : World)
    (javaKrollWindow ptr javaWindow : Nat) : Except Fault (Outcome Unit) := do
  let (jsKrollWindow, t0) ← resolve T w ptr javaKrollWindow
  let setWindowValue := get K w jsKrollWindow (.string "setWindow")
  if isFunction w setWindowValue = false then
    pure { ret := (), world := w, trace := t0 }
  else do
    let setWindow ← asObject w setWindowValue
    let jsWindow := T.javaObjectToJsValue javaWindow
    let converted := t0 ++ [.javaObjectToJsValue javaWindow]
    if jsWindow ≠ .null then
      let args := [jsWindow]
      let (result, w1) := E.call setWindow (.object jsKrollWindow) args w
      let called := converted ++ [.call setWindow (.object jsKrollWindow) args w]
      match result with
      | .threw exception =>
        pure { ret := (), world := w1,
               trace := called ++ [.openJSErrorDialog exception, .reportException exception] }
      | _ => pure { ret := (), world := w1, trace := called }
    else
      pure { ret := (), world := w, trace := converted }

/-! ## Reading traces and states -/

/-- The script function calls in a trace: function, receiver, arguments and the
world the call ran in. -/
def calls : List Event → List (Nat × JsValue × List JsValue × World)
  | [] => []
  | .call f r a w :: rest => (f, r, a, w) :: calls rest
  | _ :: rest => calls rest

/-- The calls to the diagnostic channel in a trace. -/
def diagnostics : List Event → List Event
  | [] => []
  | .openJSErrorDialog e :: rest => .openJSErrorDialog e :: diagnostics rest
  | .reportException e :: rest => .reportException e :: diagnostics rest
  | _ :: rest => diagnostics rest

/-- The value the managed map `data` holds under `k`, after conversion. -/
def userField (T : TypeConverter) (data : Nat) (k : String) : Option JsValue :=
  find k (T.javaHashMapToJsValue data)

/-- Object `id` is in the heap and none of its slots is an accessor. -/
def PlainAt (w : World) (id : Nat) : Prop :=
  ∃ o, find id w.heap = some o ∧ ∀ e ∈ o.slots, e.2 ≠ Slot.accessor

/-- Object `c` is the companion property map of object `o`: `o` keeps it in a
data slot under `propertiesSymbol`, and it is a plain object of its own. -/
def Companion (K : Symbols) (w : World) (o c : Nat) : Prop :=
  dataOf w o K.propertiesSymbol = some (.object c) ∧ c ≠ o ∧ PlainAt w c

/-- A run of `nativeSetProperty` calls on one target, in order. -/
def setProperties (K : Symbols) (T : TypeConverter) (w : World) (object ptr : Nat) :
    List (String × Nat) → Except Fault World
  | [] => .ok w
  | (name, value) :: rest => do
    let out ← nativeSetProperty K T w object ptr name value
    setProperties K T out.world object ptr rest

/-! ## A sample world -/

/-- Sample constants: the companion map is kept under "_properties", the
dispatch function under "emit". -/
def sampleSymbols : Symbols :=
  { propertiesSymbol := .string "_properties", emitSymbol := .string "emit", undefinedObject := 1 }

/-- Sample marshaling: reference 100 is the managed peer of script object 2,
reference 50 a managed map with the fields `success`, `code`, `error` and `foo`;
any other non-null reference converts to a number. -/
def sampleConverter : TypeConverter :=
  { javaObjectToJsValue := fun ref =>
      if ref = 0 then .null else if ref = 100 then .object 2 else .number (Int.ofNat ref)
    javaHashMapToJsValue := fun ref =>
      if ref = 50 then
        [("success", .string "yes"), ("code", .number 7), ("error", .string "stale"),
         ("foo", .number 1)]
      else []
    javaObjectArrayToJsArguments := fun array => array.map fun ref => .number (Int.ofNat ref)
    jsValueToJavaObject := fun v =>
      match v with
      | .number n => n.toNat
      | _ => 1 }

/-- Sample engine: function 3 returns true, function 5 throws, any other call
ends without a value; no call changes the world. -/
def sampleEngine : Engine :=
  { call := fun f _ _ w =>
      if f = 3 then (.returned (.bool true), w)
      else if f = 5 then (.threw (.string "boom"), w)
      else (.empty, w) }

/-- Sample world: a detached proxy at address 8 for object 1, an attached proxy
at address 16 for object 2.  Object 2 keeps its companion map (object 4) and
has the functions `emit` and `setWindow` (object 3) and `fail` (object 5). -/
def sampleWorld : World :=
  { proxies := [(8, { jsObject := 1, detached := true }), (16, { jsObject := 2, detached := false })]
    heap :=
      [(1, { isFunction := false, slots := [] }),
       (2, { isFunction := false,
             slots := [(.string "_properties", .data (.object 4)),
                       (.string "emit", .data (.object 3)),
                       (.string "setWindow", .data (.object 3)),
                       (.string "fail", .data (.object 5))] }),
       (3, { isFunction := true, slots := [] }),
       (4, { isFunction := false, slots := [] }),
       (5, { isFunction := true, slots := [] })] }

/-! ## Facts about association lists -/

theorem find_remove_self {κ α : Type} [DecidableEq κ] (k : κ) (m : List (κ × α)) :
    find k (remove k m) = none := by
  induction m with
  | nil => rfl
  | cons e rest ih =>
    obtain ⟨k1, a⟩ := e
    by_cases h : k1 = k <;> simp [remove, find, h, ih]

theorem find_remove_ne {κ α : Type} [DecidableEq κ] (k q : κ) (m : List (κ × α)) (h : q ≠ k) :
    find q (remove k m) = find q m := by
  induction m with
  | nil => rfl
  | cons e rest ih =>
    obtain ⟨k1, a⟩ := e
    by_cases h1 : k1 = k
    · have h2 : ¬ k = q := fun e => h e.symm
      subst h1
      simp [remove, find, h2, ih]
    · by_cases h2 : k1 = q
      · subst h2
        simp [remove, find, h1]
      · simp [remove, find, h1, h2, ih]

theorem find_append {κ α : Type} [DecidableEq κ] (k : κ) (m n : List (κ × α)) :
    find k (m ++ n) = (find k m).orElse fun _ => find k n := by
  induction m with
  | nil => rfl
  | cons e rest ih =>
    obtain ⟨k1, a⟩ := e
    by_cases h : k1 = k <;> simp [find, h, ih]

theorem find_store_self {κ α : Type} [DecidableEq κ] (k : κ) (a : α) (m : List (κ × α)) :
    find k (store k a m) = some a := by
  simp [store, find_append, find_remove_self, find]

theorem find_store_ne {κ α : Type} [DecidableEq κ] (k q : κ) (a : α) (m : List (κ × α))
    (h : q ≠ k) : find q (store k a m) = find q m := by
  have h1 : k ≠ q := fun e => h e.symm
  simp [store, find_append, find_remove_ne k q m h, find, h1]

theorem entries_append {κ α : Type} [DecidableEq κ] (k : κ) (m n : List (κ × α)) :
    entries k (m ++ n) = entries k m + entries k n := by
  induction m with
  | nil => simp [entries]
  | cons e rest ih =>
    obtain ⟨k1, a⟩ := e
    simp [entries, ih, Nat.add_assoc]

theorem entries_remove_self {κ α : Type} [DecidableEq κ] (k : κ) (m : List (κ × α)) :
    entries k (remove k m) = 0 := by
  induction m with
  | nil => rfl
  | cons e rest ih =>
    obtain ⟨k1, a⟩ := e
    by_cases h : k1 = k <;> simp [remove, entries, h, ih]

theorem entries_store_self {κ α : Type} [DecidableEq κ] (k : κ) (a : α) (m : List (κ × α)) :
    entries k (store k a m) = 1 := by
  simp [store, entries_append, entries_remove_self, entries]

theorem remove_remove {κ α : Type} [DecidableEq κ] (k : κ) (m : List (κ × α)) :
    remove k (remove k m) = remove k m := by
  induction m with
  | nil => rfl
  | cons e rest ih =>
    obtain ⟨k1, a⟩ := e
    by_cases h : k1 = k <;> simp [remove, h, ih]

theorem remove_append {κ α : Type} [DecidableEq κ] (k : κ) (m n : List (κ × α)) :
    remove k (m ++ n) = remove k m ++ remove k n := by
  induction m with
  | nil => rfl
  | cons e rest ih =>
    obtain ⟨k1, a⟩ := e
    by_cases h : k1 = k <;> simp [remove, h, ih]

theorem store_store {κ α : Type} [DecidableEq κ] (k : κ) (a b : α) (m : List (κ × α)) :
    store k b (store k a m) = store k b m := by
  simp [store, remove_append, remove_remove, remove]

theorem find_map_data (k : String) (fields : List (String × JsValue)) :
    find (Name.string k) (fields.map fun e => (Name.string e.1, Slot.data e.2)) =
      (find k fields).map Slot.data := by
  induction fields with
  | nil => rfl
  | cons e rest ih =>
    obtain ⟨k1, a⟩ := e
    by_cases h : k1 = k <;> simp [find, h, ih]

theorem plain_store (k : Name) (v : JsValue) (m : List (Name × Slot))
    (h : ∀ e ∈ m, e.2 ≠ Slot.accessor) : ∀ e ∈ store k (Slot.data v) m, e.2 ≠ Slot.accessor := by
  have hr : ∀ e ∈ remove k m, e.2 ≠ Slot.accessor := by
    induction m with
    | nil => simp [remove]
    | cons e0 rest ih =>
      obtain ⟨k1, a⟩ := e0
      have hrest : ∀ e ∈ rest, e.2 ≠ Slot.accessor := fun e he => h e (List.mem_cons_of_mem _ he)
      by_cases h1 : k1 = k
      · simpa [remove, h1] using ih hrest
      · intro e he
        simp only [remove, h1, if_false, List.mem_cons] at he
        rcases he with he | he
        · subst he
          exact h (k1, a) (List.mem_cons_self _ _)
        · exact ih hrest e he
  intro e he
  simp only [store, List.mem_append, List.mem_singleton] at he
  rcases he with he | he
  · exact hr e he
  · subst he
    simp

theorem find_plain (k : Name) (m : List (Name × Slot)) (h : ∀ e ∈ m, e.2 ≠ Slot.accessor) :
    find k m ≠ some Slot.accessor := by
  induction m with
  | nil => simp [find]
  | cons e0 rest ih =>
    obtain ⟨k1, a⟩ := e0
    have hrest : ∀ e ∈ rest, e.2 ≠ Slot.accessor := fun e he => h e (List.mem_cons_of_mem _ he)
    by_cases h1 : k1 = k
    · have := h (k1, a) (List.mem_cons_self _ _)
      simpa [find, h1] using this
    · simpa [find, h1] using ih hrest

/-! ## Facts about the heap -/

theorem find_mapSlots (i id : Nat) (f : List (Name × Slot) → List (Name × Slot))
    (heap : List (Nat × JsObject)) :
    find i (mapSlots id f heap) =
      (find i heap).map fun o => if i = id then { o with slots := f o.slots } else o := by
  induction heap with
  | nil => rfl
  | cons e rest ih =>
    obtain ⟨j, o⟩ := e
    by_cases h1 : j = id
    · by_cases h2 : j = i
      · subst h1; subst h2; simp [mapSlots, find]
      · simp [mapSlots, find, h1, h2, ih]
        subst h1
        simp [find, h2, ih]
    · by_cases h2 : j = i
      · subst h2
        have h3 : ¬ j = id := h1
        simp [mapSlots, find, h1, h3]
      · simp [mapSlots, find, h1, h2, ih]

theorem slotsOf_mapSlots_self (w : World) (id : Nat) (o : JsObject)
    (f : List (Name × Slot) → List (Name × Slot)) (h : find id w.heap = some o) :
    slotsOf { w with heap := mapSlots id f w.heap } id = f (slotsOf w id) := by
  simp [slotsOf, find_mapSlots, h]

theorem slotsOf_mapSlots_ne (w : World) (i id : Nat)
    (f : List (Name × Slot) → List (Name × Slot)) (h : i ≠ id) :
    slotsOf { w with heap := mapSlots id f w.heap } i = slotsOf w i := by
  simp only [slotsOf, find_mapSlots]
  cases find i w.heap <;> simp [h]

theorem isFunction_mapSlots (w : World) (id : Nat)
    (f : List (Name × Slot) → List (Name × Slot)) (v : JsValue) :
    isFunction { w with heap := mapSlots id f w.heap } v = isFunction w v := by
  cases v <;> simp only [isFunction]
  rename_i i
  simp only [find_mapSlots]
  cases find i w.heap with
  | none => rfl
  | some o => by_cases h : i = id <;> simp [h]

theorem asObject_mapSlots (w : World) (id : Nat)
    (f : List (Name × Slot) → List (Name × Slot)) (v : JsValue) :
    asObject { w with heap := mapSlots id f w.heap } v = asObject w v := by
  cases v <;> simp only [asObject]
  rename_i i
  simp only [find_mapSlots]
  cases find i w.heap <;> rfl

theorem handle_mapSlots (w : World) (id : Nat)
    (f : List (Name × Slot) → List (Name × Slot)) (proxy : Proxy) :
    handle { w with heap := mapSlots id f w.heap } proxy = handle w proxy := by
  simp only [handle, find_mapSlots]
  cases find proxy.jsObject w.heap <;> rfl

theorem resolve_mapSlots (T : TypeConverter) (w : World) (id : Nat)
    (f : List (Name × Slot) → List (Name × Slot)) (ptr object : Nat) :
    resolve T { w with heap := mapSlots id f w.heap } ptr object = resolve T w ptr object := by
  simp only [resolve, asObject_mapSlots, handle_mapSlots, deref]

theorem plainAt_mapSlots_ne (w : World) (c id : Nat)
    (f : List (Name × Slot) → List (Name × Slot)) (h : c ≠ id) (hc : PlainAt w c) :
    PlainAt { w with heap := mapSlots id f w.heap } c := by
  obtain ⟨o, ho, hplain⟩ := hc
  exact ⟨o, by simp [find_mapSlots, ho, h], hplain⟩

theorem set_plain (w : World) (id : Nat) (key : Name) (v : JsValue) (h : PlainAt w id) :
    set w id key v = (storeData w id key v, []) := by
  obtain ⟨o, ho, hplain⟩ := h
  have hne := find_plain key o.slots hplain
  unfold set
  split
  · rename_i heq
    simp only [slotsOf, ho] at heq
    exact absurd heq hne
  · rfl

theorem plainAt_storeData (w : World) (id : Nat) (key : Name) (v : JsValue) (h : PlainAt w id) :
    PlainAt (storeData w id key v) id := by
  obtain ⟨o, ho, hplain⟩ := h
  exact ⟨{ o with slots := store key (.data v) o.slots },
    by simp [storeData, find_mapSlots, ho], plain_store key v o.slots hplain⟩

theorem dataOf_storeData_self (w : World) (id : Nat) (key : Name) (v : JsValue)
    (h : PlainAt w id) : dataOf (storeData w id key v) id key = some v := by
  obtain ⟨o, ho, _⟩ := h
  simp [dataOf, storeData, slotsOf_mapSlots_self w id o _ ho, find_store_self]

theorem find_storeData_ne (w : World) (id : Nat) (key q : Name) (v : JsValue)
    (h : PlainAt w id) (hq : q ≠ key) :
    find q (slotsOf (storeData w id key v) id) = find q (slotsOf w id) := by
  obtain ⟨o, ho, _⟩ := h
  simp [storeData, slotsOf_mapSlots_self w id o _ ho, find_store_ne key q _ _ hq]

theorem dataOf_storeData_ne (w : World) (id : Nat) (key q : Name) (v : JsValue)
    (h : PlainAt w id) (hq : q ≠ key) :
    dataOf (storeData w id key v) id q = dataOf w id q := by
  simp only [dataOf, find_storeData_ne w id key q v h hq]

/-! ## Facts about the event payload -/

theorem lt_freshId (heap : List (Nat × JsObject)) (i : Nat) (o : JsObject)
    (h : find i heap = some o) : i < freshId heap := by
  induction heap with
  | nil => simp [find] at h
  | cons e rest ih =>
    obtain ⟨j, x⟩ := e
    simp only [freshId, List.map_cons, List.foldr_cons]
    by_cases hj : j = i
    · subst hj
      omega
    · simp only [find, hj, if_false] at h
      have := ih h
      simp only [freshId] at this
      omega

/-- The object made for the payload takes the place of no object of the heap. -/
theorem find_javaHashMapToJsValue (T : TypeConverter) (w : World) (data i : Nat) (o : JsObject)
    (h : find i w.heap = some o) : find i (javaHashMapToJsValue T w data).2.heap = some o := by
  have hlt := lt_freshId w.heap i o h
  have hne : ¬ freshId w.heap = i := by omega
  simp only [javaHashMapToJsValue, find, hne, if_false]
  exact h

theorem plainAt_javaHashMapToJsValue (T : TypeConverter) (w : World) (data : Nat) :
    PlainAt (javaHashMapToJsValue T w data).2 (javaHashMapToJsValue T w data).1 := by
  refine ⟨{ isFunction := false,
             slots := (T.javaHashMapToJsValue data).map fun e => (Name.string e.1, Slot.data e.2) },
    by simp [javaHashMapToJsValue, find], ?_⟩
  intro e he
  simp only [List.mem_map] at he
  obtain ⟨x, _, hx⟩ := he
  subst hx
  simp

theorem dataOf_javaHashMapToJsValue (T : TypeConverter) (w : World) (data : Nat) (k : String) :
    dataOf (javaHashMapToJsValue T w data).2 (javaHashMapToJsValue T w data).1 (.string k) =
      userField T data k := by
  simp only [dataOf, slotsOf, javaHashMapToJsValue, find, if_true, find_map_data, userField]
  cases find k (T.javaHashMapToJsValue data) <;> rfl

theorem name_ne {a b : String} (h : a ≠ b) : Name.string a ≠ Name.string b :=
  fun e => h (Name.string.inj e)

theorem buildPayload_spec (T : TypeConverter) (w : World) (source data : Nat)
    (bubble reportSuccess : Bool) (code : Int) (errorMessage : Option String) :
    ∃ jsData wc,
      buildPayload T w source data bubble reportSuccess code errorMessage =
        (jsData, wc, [.javaHashMapToJsValue data]) ∧
      dataOf wc jsData (.string "bubbles") = some (.bool bubble) ∧
      dataOf wc jsData (.string "source") = some (.object source) ∧
      ((reportSuccess = true ∨ code ≠ 0) →
        dataOf wc jsData (.string "success") = some (.bool (decide (code = 0))) ∧
        dataOf wc jsData (.string "code") = some (.number code)) ∧
      (¬ (reportSuccess = true ∨ code ≠ 0) →
        dataOf wc jsData (.string "success") = userField T data "success" ∧
        dataOf wc jsData (.string "code") = userField T data "code") ∧
      (∀ message, errorMessage = some message →
        dataOf wc jsData (.string "error") = some (.string message)) ∧
      (errorMessage = none → dataOf wc jsData (.string "error") = userField T data "error") ∧
      (∀ k, k ≠ "bubbles" → k ≠ "source" → k ≠ "success" → k ≠ "code" → k ≠ "error" →
        dataOf wc jsData (.string k) = userField T data k) := by
  have h1 := plainAt_javaHashMapToJsValue T w data
  have u := dataOf_javaHashMapToJsValue T w data
  have ha : javaHashMapToJsValue T w data =
      ((javaHashMapToJsValue T w data).1, (javaHashMapToJsValue T w data).2) := rfl
  generalize (javaHashMapToJsValue T w data).1 = d at h1 u ha
  generalize (javaHashMapToJsValue T w data).2 = w1 at h1 u ha
  obtain ⟨w2, e2⟩ : ∃ w2, w2 = storeData w1 d (.string "bubbles") (.bool bubble) := ⟨_, rfl⟩
  obtain ⟨w3, e3⟩ : ∃ w3, w3 = storeData w2 d (.string "source") (.object source) := ⟨_, rfl⟩
  have h2 : PlainAt w2 d := e2 ▸ plainAt_storeData w1 d _ _ h1
  have h3 : PlainAt w3 d := e3 ▸ plainAt_storeData w2 d _ _ h2
  have b3 : dataOf w3 d (.string "bubbles") = some (.bool bubble) := by
    rw [e3, dataOf_storeData_ne w2 d _ _ _ h2 (by decide), e2, dataOf_storeData_self w1 d _ _ h1]
  have s3 : dataOf w3 d (.string "source") = some (.object source) := by
    rw [e3, dataOf_storeData_self w2 d _ _ h2]
  have o3 : ∀ k, k ≠ "bubbles" → k ≠ "source" → dataOf w3 d (.string k) = userField T data k := by
    intro k k1 k2
    rw [e3, dataOf_storeData_ne w2 d _ _ _ h2 (name_ne k2), e2,
      dataOf_storeData_ne w1 d _ _ _ h1 (name_ne k1), u]
  -- lines 110-113
  obtain ⟨w4, e4, h4, c4, n4⟩ : ∃ w4,
      (if reportSuccess = true ∨ code ≠ 0 then
          ((set (set w3 d (.string "success") (.bool (decide (code = 0)))).1 d (.string "code")
              (.number code)).1,
            (set w3 d (.string "success") (.bool (decide (code = 0)))).2 ++
              (set (set w3 d (.string "success") (.bool (decide (code = 0)))).1 d (.string "code")
                (.number code)).2)
        else (w3, [])) = (w4, []) ∧ PlainAt w4 d ∧
      ((reportSuccess = true ∨ code ≠ 0) →
        dataOf w4 d (.string "success") = some (.bool (decide (code = 0))) ∧
        dataOf w4 d (.string "code") = some (.number code)) ∧
      (∀ q, (q = Name.string "success" ∨ q = Name.string "code" → ¬ (reportSuccess = true ∨ code ≠ 0)) →
        dataOf w4 d q = dataOf w3 d q) := by
    by_cases hrs : reportSuccess = true ∨ code ≠ 0
    · have ha := plainAt_storeData w3 d (.string "success") (.bool (decide (code = 0))) h3
      have hb := plainAt_storeData _ d (.string "code") (.number code) ha
      refine ⟨_, ?_, hb, fun _ => ⟨?_, ?_⟩, ?_⟩
      · simp only [hrs, if_true, set_plain w3 d _ _ h3, set_plain _ d _ _ ha, List.append_nil]
      · rw [dataOf_storeData_ne _ d _ _ _ ha (by decide), dataOf_storeData_self w3 d _ _ h3]
      · rw [dataOf_storeData_self _ d _ _ ha]
      · intro q hq
        have q1 : q ≠ Name.string "success" := fun e => hq (Or.inl e) hrs
        have q2 : q ≠ Name.string "code" := fun e => hq (Or.inr e) hrs
        rw [dataOf_storeData_ne _ d _ _ _ ha q2, dataOf_storeData_ne w3 d _ _ _ h3 q1]
    · exact ⟨w3, by simp only [hrs, if_false], h3, fun h => absurd h hrs, fun _ _ => rfl⟩
  -- lines 115-117
  obtain ⟨w5, e5, c5, n5⟩ : ∃ w5,
      (match errorMessage with
        | some message => set w4 d (.string "error") (.string message)
        | none => (w4, [])) = (w5, []) ∧
      (∀ message, errorMessage = some message →
        dataOf w5 d (.string "error") = some (.string message)) ∧
      (∀ q, (q = Name.string "error" → errorMessage = none) → dataOf w5 d q = dataOf w4 d q) := by
    cases errorMessage with
    | none => exact ⟨w4, rfl, fun _ h => (by cases h), fun _ _ => rfl⟩
    | some message =>
      refine ⟨_, set_plain w4 d _ _ h4, ?_, ?_⟩
      · intro m hm
        cases hm
        exact dataOf_storeData_self w4 d _ _ h4
      · intro q hq
        have q1 : q ≠ Name.string "error" := fun e => by cases hq e
        exact dataOf_storeData_ne w4 d _ _ _ h4 q1
  refine ⟨d, w5, ?_, ?_, ?_, ?_, ?_, c5, ?_, ?_⟩
  · simp only [buildPayload, ha, set_plain w1 d _ _ h1, ← e2, set_plain w2 d _ _ h2, ← e3, e4,
      List.append_nil]
    cases errorMessage with
    | none =>
      have e : w4 = w5 := congrArg Prod.fst e5
      subst e
      rfl
    | some message =>
      have e : set w4 d (.string "error") (.string message) = (w5, []) := e5
      simp only [e, List.append_nil]
  · rw [n5 _ (fun e => absurd e (by decide)), n4 _ (fun e => by rcases e with e | e <;> exact absurd e (by decide)), b3]
  · rw [n5 _ (fun e => absurd e (by decide)), n4 _ (fun e => by rcases e with e | e <;> exact absurd e (by decide)), s3]
  · intro hrs
    rw [n5 _ (fun e => absurd e (by decide)), n5 _ (fun e => absurd e (by decide))]
    exact c4 hrs
  · intro hrs
    rw [n5 _ (fun e => absurd e (by decide)), n5 _ (fun e => absurd e (by decide)), n4 _ (fun _ => hrs),
      n4 _ (fun _ => hrs), o3 _ (by decide) (by decide), o3 _ (by decide) (by decide)]
    exact ⟨rfl, rfl⟩
  · intro he
    rw [n5 _ (fun _ => he), n4 _ (fun e => by rcases e with e | e <;> exact absurd e (by decide)),
      o3 _ (by decide) (by decide)]
  · intro k k1 k2 k3 k4 k5
    rw [n5 _ (fun e => absurd (Name.string.inj e) k5),
      n4 _ (fun e => by
        rcases e with e | e
        · exact absurd (Name.string.inj e) k3
        · exact absurd (Name.string.inj e) k4),
      o3 k k1 k2]

/-! ## Facts about traces and resolution -/

theorem calls_append (s t : List Event) : calls (s ++ t) = calls s ++ calls t := by
  induction s with
  | nil => rfl
  | cons e rest ih => cases e <;> simp [calls, ih]

theorem diagnostics_append (s t : List Event) :
    diagnostics (s ++ t) = diagnostics s ++ diagnostics t := by
  induction s with
  | nil => rfl
  | cons e rest ih => cases e <;> simp [diagnostics, ih]

theorem resolve_ok (T : TypeConverter) (w : World) (ptr object o : Nat) (t : List Event)
    (h : resolve T w ptr object = .ok (o, t)) :
    (∃ x, find o w.heap = some x) ∧
    (ptr ≠ 0 → (∃ proxy, find ptr w.proxies = some proxy ∧ proxy.jsObject = o) ∧ t = []) ∧
    (ptr = 0 → T.javaObjectToJsValue object = .object o ∧ t = [.javaObjectToJsValue object]) := by
  unfold resolve at h
  by_cases hp : ptr = 0
  · simp only [hp, ne_eq, not_true_eq_false, if_false] at h
    unfold asObject at h
    split at h
    · rename_i id
      split at h
      · rename_i x hx
        simp only [bind, Except.bind, pure, Except.pure, Except.ok.injEq, Prod.mk.injEq] at h
        obtain ⟨h1, h2⟩ := h
        subst h1
        refine ⟨⟨x, hx⟩, fun hne => absurd hp hne, fun _ => ⟨?_, h2.symm⟩⟩
        assumption
      · simp [bind, Except.bind] at h
    · simp [bind, Except.bind] at h
  · simp only [hp, ne_eq, not_false_eq_true, if_true] at h
    unfold deref at h
    simp only [hp, if_false] at h
    cases hf : find ptr w.proxies with
    | none => simp [hf, bind, Except.bind] at h
    | some proxy =>
      simp only [hf, bind, Except.bind, handle] at h
      cases hh : find proxy.jsObject w.heap with
      | none => simp [hh] at h
      | some x =>
        simp only [hh, pure, Except.pure, Except.ok.injEq, Prod.mk.injEq] at h
        obtain ⟨h1, h2⟩ := h
        subst h1
        exact ⟨⟨x, hh⟩, fun _ => ⟨⟨proxy, rfl, rfl⟩, h2.symm⟩, fun h0 => absurd h0 hp⟩

theorem resolve_trace (T : TypeConverter) (w : World) (ptr object o : Nat) (t : List Event)
    (h : resolve T w ptr object = .ok (o, t)) : calls t = [] ∧ diagnostics t = [] := by
  obtain ⟨_, h1, h2⟩ := resolve_ok T w ptr object o t h
  by_cases hp : ptr = 0
  · rw [(h2 hp).2]; exact ⟨rfl, rfl⟩
  · rw [(h1 hp).2]; exact ⟨rfl, rfl⟩

theorem resolveSource_ok (T : TypeConverter) (w : World)
    (jEmitter emitter jsource sourcePtr source : Nat) (t : List Event)
    (h : resolveSource T w jEmitter emitter jsource sourcePtr = .ok (source, t)) :
    (jsource = 0 ∨ jsource = jEmitter → source = emitter) ∧
    (¬ (jsource = 0 ∨ jsource = jEmitter) → sourcePtr ≠ 0 →
      ∃ proxy, find sourcePtr w.proxies = some proxy ∧ proxy.jsObject = source) ∧
    (¬ (jsource = 0 ∨ jsource = jEmitter) → sourcePtr = 0 →
      T.javaObjectToJsValue jsource = .object source) ∧
    calls t = [] ∧ diagnostics t = [] := by
  by_cases hs : jsource = 0 ∨ jsource = jEmitter
  · simp only [resolveSource, hs, if_true, pure, Except.pure, Except.ok.injEq, Prod.mk.injEq] at h
    obtain ⟨h1, h2⟩ := h
    subst h2
    exact ⟨fun _ => h1.symm, fun hn => absurd hs hn, fun hn => absurd hs hn, rfl, rfl⟩
  · have hr : resolve T w sourcePtr jsource = .ok (source, t) := by
      simpa only [resolveSource, hs, if_false, resolve] using h
    obtain ⟨_, h1, h2⟩ := resolve_ok T w sourcePtr jsource source t hr
    obtain ⟨h3, h4⟩ := resolve_trace T w sourcePtr jsource source t hr
    exact ⟨fun hn => absurd hn hs, fun _ hp => (h1 hp).1, fun _ hp => (h2 hp).1, h3, h4⟩

theorem asObject_function (w : World) (f : Nat) (h : isFunction w (.object f) = true) :
    asObject w (.object f) = .ok f := by
  simp only [isFunction] at h
  simp only [asObject]
  cases hf : find f w.heap with
  | none => simp [hf] at h
  | some o => rfl

theorem isFunction_object (w : World) (v : JsValue) (h : isFunction w v = true) :
    ∃ f, v = .object f := by
  cases v <;> simp [isFunction] at h
  exact ⟨_, rfl⟩

/-! ## Facts about event dispatch -/

theorem nativeFireEvent_absent (K : Symbols) (T : TypeConverter) (E : Engine) (w : World)
    (jEmitter ptr jsource sourcePtr : Nat) (event : String) (data : Nat)
    (bubble reportSuccess : Bool) (code : Int) (errorMessage : Option String)
    (emitter : Nat) (t0 : List Event)
    (hres : resolve T w ptr jEmitter = .ok (emitter, t0))
    (habs : isFunction w (get K w emitter K.emitSymbol) = false) :
    nativeFireEvent K T E w jEmitter ptr jsource sourcePtr event data bubble reportSuccess code
      errorMessage = .ok { ret := false, world := w, trace := t0 } := by
  simp [nativeFireEvent, hres, habs, bind, Except.bind, pure, Except.pure]

theorem nativeFireEvent_callable (K : Symbols) (T : TypeConverter) (E : Engine) (w : World)
    (jEmitter ptr jsource sourcePtr : Nat) (event : String) (data : Nat)
    (bubble reportSuccess : Bool) (code : Int) (errorMessage : Option String)
    (emitter f source jsData : Nat) (t0 t1 : List Event) (wc : World)
    (hres : resolve T w ptr jEmitter = .ok (emitter, t0))
    (hemit : get K w emitter K.emitSymbol = .object f)
    (hfn : isFunction w (.object f) = true)
    (hsrc : resolveSource T w jEmitter emitter jsource sourcePtr = .ok (source, t1))
    (hpay : buildPayload T w source data bubble reportSuccess code errorMessage =
      (jsData, wc, [.javaHashMapToJsValue data])) :
    ∃ out, nativeFireEvent K T E w jEmitter ptr jsource sourcePtr event data bubble
        reportSuccess code errorMessage = .ok out ∧
      out.world = (E.call f (.object emitter) [.string event, .object jsData] wc).2 ∧
      (out.ret = true ↔
        (E.call f (.object emitter) [.string event, .object jsData] wc).1 =
          .returned (.bool true)) ∧
      calls out.trace = [(f, .object emitter, [.string event, .object jsData], wc)] ∧
      (∀ e, (E.call f (.object emitter) [.string event, .object jsData] wc).1 = .threw e →
        diagnostics out.trace = [.openJSErrorDialog e, .reportException e]) ∧
      ((∀ e, (E.call f (.object emitter) [.string event, .object jsData] wc).1 ≠ .threw e) →
        diagnostics out.trace = []) := by
  obtain ⟨_, _, _, c1, d1⟩ := resolveSource_ok T w jEmitter emitter jsource sourcePtr source t1 hsrc
  obtain ⟨c0, d0⟩ := resolve_trace T w ptr jEmitter emitter t0 hres
  have hfn2 : ¬ isFunction w (.object f) = false := by simp [hfn]
  simp only [nativeFireEvent, hres, hemit, hfn2, hsrc, asObject_function w f hfn, hpay, bind,
    Except.bind, pure, Except.pure, if_false]
  cases hr : (E.call f (.object emitter) [.string event, .object jsData] wc).1 with
  | threw e =>
    refine ⟨_, rfl, rfl, ?_, ?_, ?_, ?_⟩
    · simp
    · simp [calls_append, c0, c1, calls]
    · intro e1 he1
      cases he1
      simp [diagnostics_append, d0, d1, diagnostics]
    · intro hno
      exact absurd rfl (hno e)
  | empty =>
    refine ⟨_, rfl, rfl, ?_, ?_, ?_, ?_⟩
    · simp
    · simp [calls_append, c0, c1, calls]
    · intro e1 he1
      cases he1
    · intro _
      simp [diagnostics_append, d0, d1, diagnostics]
  | returned v =>
    by_cases hv : v = .bool true
    · subst hv
      refine ⟨_, rfl, rfl, ?_, ?_, ?_, ?_⟩
      · simp
      · simp [calls_append, c0, c1, calls]
      · intro e1 he1
        cases he1
      · intro _
        simp [diagnostics_append, d0, d1, diagnostics]
    · simp only [hv, if_false]
      refine ⟨_, rfl, rfl, ?_, ?_, ?_, ?_⟩
      · simp [hv]
      · simp [calls_append, c0, c1, calls]
      · intro e1 he1
        cases he1
      · intro _
        simp [diagnostics_append, d0, d1, diagnostics]

/-! ## Event dispatch -/

/-- C1: when the emitter resolves, fireEvent returns normally, and it returns
true exactly when the "emit" property of the emitter is a function and calling
it (emitter as receiver, event name and payload as arguments) ends with the
value that is the boolean true.  In every other case (no callable "emit", the
call throws, the call has no value, the call returns anything else) it returns
false. -/
theorem fireEvent_true_iff (K : Symbols) (T : TypeConverter) (E : Engine) (w : World)
    (jEmitter ptr jsource sourcePtr : Nat) (event : String) (data : Nat)
    (bubble reportSuccess : Bool) (code : Int) (errorMessage : Option String)
    (emitter source : Nat) (t0 t1 : List Event)
    (hres : resolve T w ptr jEmitter = .ok (emitter, t0))
    (hsrc : isFunction w (get K w emitter K.emitSymbol) = true →
      resolveSource T w jEmitter emitter jsource sourcePtr = .ok (source, t1)) :
    ∃ out, nativeFireEvent K T E w jEmitter ptr jsource sourcePtr event data bubble
        reportSuccess code errorMessage = .ok out ∧
      (out.ret = true ↔
        ∃ f, get K w emitter K.emitSymbol = .object f ∧ isFunction w (.object f) = true ∧
          (E.call f (.object emitter)
            [.string event,
              .object (buildPayload T w source data bubble reportSuccess code errorMessage).1]
            (buildPayload T w source data bubble reportSuccess code errorMessage).2.1).1 =
              .returned (.bool true)) ∧
      (isFunction w (get K w emitter K.emitSymbol) = false →
        out.ret = false ∧ out.world = w ∧ calls out.trace = []) := by
  by_cases hc : isFunction w (get K w emitter K.emitSymbol) = true
  · obtain ⟨f, hf⟩ := isFunction_object w _ hc
    have hfn : isFunction w (.object f) = true := hf ▸ hc
    obtain ⟨jsData, wc, hpay, _⟩ :=
      buildPayload_spec T w source data bubble reportSuccess code errorMessage
    obtain ⟨out, hout, _, hret, _⟩ :=
      nativeFireEvent_callable K T E w jEmitter ptr jsource sourcePtr event data bubble
        reportSuccess code errorMessage emitter f source jsData t0 t1 wc hres hf hfn (hsrc hc) hpay
    refine ⟨out, hout, ?_, ?_⟩
    · rw [hret, hpay]
      constructor
      · intro h
        exact ⟨f, hf, hfn, h⟩
      · rintro ⟨g, hg, _, h⟩
        have e : g = f := by
          rw [hf] at hg
          exact (JsValue.object.inj hg).symm
        subst e
        exact h
    · intro habs
      rw [hc] at habs
      cases habs
  · have habs : isFunction w (get K w emitter K.emitSymbol) = false := by
      cases h : isFunction w (get K w emitter K.emitSymbol)
      · rfl
      · exact absurd h hc
    refine ⟨_, nativeFireEvent_absent K T E w jEmitter ptr jsource sourcePtr event data bubble
      reportSuccess code errorMessage emitter t0 hres habs, ?_, ?_⟩
    · constructor
      · intro h
        cases h
      · rintro ⟨g, hg, hfn, _⟩
        rw [hg, hfn] at habs
        cases habs
    · intro _
      exact ⟨rfl, rfl, (resolve_trace T w ptr jEmitter emitter t0 hres).1⟩

/-- C2 (as amended): when "emit" is callable, it is called once with the payload
as second argument, and in that payload: if reportSuccess is set or the code is
not zero, `success` is the boolean `code == 0` and `code` is the given code,
otherwise `success` and `code` are whatever the user data holds under those
keys (absent when the user data has none); if an error message is supplied,
`error` is that message, otherwise `error` is whatever the user data holds. -/
theorem fireEvent_payload_status (K : Symbols) (T : TypeConverter) (E : Engine) (w : World)
    (jEmitter ptr jsource sourcePtr : Nat) (event : String) (data : Nat)
    (bubble reportSuccess : Bool) (code : Int) (errorMessage : Option String)
    (emitter f source : Nat) (t0 t1 : List Event)
    (hres : resolve T w ptr jEmitter = .ok (emitter, t0))
    (hemit : get K w emitter K.emitSymbol = .object f)
    (hfn : isFunction w (.object f) = true)
    (hsrc : resolveSource T w jEmitter emitter jsource sourcePtr = .ok (source, t1)) :
    ∃ out jsData wc, nativeFireEvent K T E w jEmitter ptr jsource sourcePtr event data bubble
        reportSuccess code errorMessage = .ok out ∧
      calls out.trace = [(f, .object emitter, [.string event, .object jsData], wc)] ∧
      ((reportSuccess = true ∨ code ≠ 0) →
        dataOf wc jsData (.string "success") = some (.bool (decide (code = 0))) ∧
        dataOf wc jsData (.string "code") = some (.number code)) ∧
      (¬ (reportSuccess = true ∨ code ≠ 0) →
        dataOf wc jsData (.string "success") = userField T data "success" ∧
        dataOf wc jsData (.string "code") = userField T data "code") ∧
      (∀ message, errorMessage = some message →
        dataOf wc jsData (.string "error") = some (.string message)) ∧
      (errorMessage = none → dataOf wc jsData (.string "error") = userField T data "error") := by
  obtain ⟨jsData, wc, hpay, _, _, hyes, hno, herr, hnoerr, _⟩ :=
    buildPayload_spec T w source data bubble reportSuccess code errorMessage
  obtain ⟨out, hout, _, _, hcalls, _⟩ :=
    nativeFireEvent_callable K T E w jEmitter ptr jsource sourcePtr event data bubble
      reportSuccess code errorMessage emitter f source jsData t0 t1 wc hres hemit hfn hsrc hpay
  exact ⟨out, jsData, wc, hout, hcalls, hyes, hno, herr, hnoerr⟩

/-- C10 (as amended): when "emit" is callable, the payload it is called with has
`bubbles` equal to the bubble flag and `source` equal to the resolved source,
whatever the user data holds under those keys.  The resolved source is the
emitter when the source reference is null or is the emitter reference, else the
script object of the proxy at the source handle when that handle is not zero,
else the conversion of the managed source object.  A user field is unchanged
unless its key is `bubbles` or `source`, or is `success` or `code` while
reportSuccess is set or the code is not zero, or is `error` while an error
message is supplied. -/
theorem fireEvent_payload_source (K : Symbols) (T : TypeConverter) (E : Engine) (w : World)
    (jEmitter ptr jsource sourcePtr : Nat) (event : String) (data : Nat)
    (bubble reportSuccess : Bool) (code : Int) (errorMessage : Option String)
    (emitter f source : Nat) (t0 t1 : List Event)
    (hres : resolve T w ptr jEmitter = .ok (emitter, t0))
    (hemit : get K w emitter K.emitSymbol = .object f)
    (hfn : isFunction w (.object f) = true)
    (hsrc : resolveSource T w jEmitter emitter jsource sourcePtr = .ok (source, t1)) :
    ∃ out jsData wc, nativeFireEvent K T E w jEmitter ptr jsource sourcePtr event data bubble
        reportSuccess code errorMessage = .ok out ∧
      calls out.trace = [(f, .object emitter, [.string event, .object jsData], wc)] ∧
      dataOf wc jsData (.string "bubbles") = some (.bool bubble) ∧
      dataOf wc jsData (.string "source") = some (.object source) ∧
      (jsource = 0 ∨ jsource = jEmitter → source = emitter) ∧
      (¬ (jsource = 0 ∨ jsource = jEmitter) → sourcePtr ≠ 0 →
        ∃ proxy, find sourcePtr w.proxies = some proxy ∧ proxy.jsObject = source) ∧
      (¬ (jsource = 0 ∨ jsource = jEmitter) → sourcePtr = 0 →
        T.javaObjectToJsValue jsource = .object source) ∧
      (∀ k, k ≠ "bubbles" → k ≠ "source" →
        (k = "success" ∨ k = "code" → ¬ (reportSuccess = true ∨ code ≠ 0)) →
        (k = "error" → errorMessage = none) →
        dataOf wc jsData (.string k) = userField T data k) := by
  obtain ⟨jsData, wc, hpay, hb, hs, _, hno, _, hnoerr, hother⟩ :=
    buildPayload_spec T w source data bubble reportSuccess code errorMessage
  obtain ⟨out, hout, _, _, hcalls, _⟩ :=
    nativeFireEvent_callable K T E w jEmitter ptr jsource sourcePtr event data bubble
      reportSuccess code errorMessage emitter f source jsData t0 t1 wc hres hemit hfn hsrc hpay
  obtain ⟨r1, r2, r3, _⟩ := resolveSource_ok T w jEmitter emitter jsource sourcePtr source t1 hsrc
  refine ⟨out, jsData, wc, hout, hcalls, hb, hs, r1, r2, r3, ?_⟩
  intro k k1 k2 k3 k4
  by_cases e1 : k = "success"
  · subst e1
    exact (hno (k3 (Or.inl rfl))).1
  · by_cases e2 : k = "code"
    · subst e2
      exact (hno (k3 (Or.inr rfl))).2
    · by_cases e3 : k = "error"
      · subst e3
        exact hnoerr (k4 rfl)
      · exact hother k k1 k2 e1 e2 e3

/-! ## Call dispatch -/

/-- C6: for a non-zero handle of a live proxy whose named property is a
function, callProperty returns normally.  It calls the function once; if the
call throws, the result is the undefined sentinel and the diagnostic channel is
used exactly once (the error dialog, then the exception report, both for the
caught exception); if the call does not throw, the diagnostic channel is not
used at all. -/
theorem callProperty_exception (K : Symbols) (T : TypeConverter) (E : Engine) (w : World)
    (ptr : Nat) (propertyName : String) (args : Option (List Nat))
    (proxy : Proxy) (object : JsObject) (f : Nat) (argv : List JsValue)
    (hnz : ptr ≠ 0)
    (hlive : find ptr w.proxies = some proxy)
    (hobj : find proxy.jsObject w.heap = some object)
    (hprop : get K w proxy.jsObject (.string propertyName) = .object f)
    (hfn : isFunction w (.object f) = true)
    (hargv : argv = match args with
      | some array => T.javaObjectArrayToJsArguments array
      | none => []) :
    ∃ out, nativeCallProperty K T E w ptr propertyName args = .ok out ∧
      calls out.trace = [(f, .object proxy.jsObject, argv, w)] ∧
      out.world = (E.call f (.object proxy.jsObject) argv w).2 ∧
      (∀ e, (E.call f (.object proxy.jsObject) argv w).1 = .threw e →
        out.ret = K.undefinedObject ∧
        diagnostics out.trace = [.openJSErrorDialog e, .reportException e]) ∧
      ((∀ e, (E.call f (.object proxy.jsObject) argv w).1 ≠ .threw e) →
        diagnostics out.trace = []) := by
  have hfn2 : ¬ isFunction w (.object f) = false := by simp [hfn]
  subst hargv
  simp only [nativeCallProperty, deref, hnz, hlive, handle, hobj, hprop, hfn2,
    asObject_function w f hfn, bind, Except.bind, pure, Except.pure, if_false]
  cases args with
  | none =>
    simp only []
    cases hr : (E.call f (.object proxy.jsObject) [] w).1 with
    | threw e =>
      refine ⟨_, rfl, ?_, rfl, ?_, ?_⟩
      · simp [calls]
      · intro e1 he1
        cases he1
        exact ⟨rfl, by simp [diagnostics]⟩
      · intro hno
        exact absurd rfl (hno e)
    | empty =>
      refine ⟨_, rfl, ?_, rfl, ?_, ?_⟩
      · simp [calls]
      · intro e1 he1
        cases he1
      · intro _
        simp [diagnostics]
    | returned v =>
      refine ⟨_, rfl, ?_, rfl, ?_, ?_⟩
      · simp [calls]
      · intro e1 he1
        cases he1
      · intro _
        simp [diagnostics]
  | some array =>
    simp only []
    cases hr : (E.call f (.object proxy.jsObject) (T.javaObjectArrayToJsArguments array) w).1 with
    | threw e =>
      refine ⟨_, rfl, ?_, rfl, ?_, ?_⟩
      · simp [calls]
      · intro e1 he1
        cases he1
        exact ⟨rfl, by simp [diagnostics]⟩
      · intro hno
        exact absurd rfl (hno e)
    | empty =>
      refine ⟨_, rfl, ?_, rfl, ?_, ?_⟩
      · simp [calls]
      · intro e1 he1
        cases he1
      · intro _
        simp [diagnostics]
    | returned v =>
      refine ⟨_, rfl, ?_, rfl, ?_, ?_⟩
      · simp [calls]
      · intro e1 he1
        cases he1
      · intro _
        simp [diagnostics]

/-! ## Context propagation -/

/-- C9: when the target resolves, propagateContext returns normally.  It calls
"setWindow" exactly when that property of the target is a function and the
context converts to a value other than null; the call is then the only one,
with the target as receiver and the converted context as sole argument, and an
exception it throws goes to the diagnostic channel once.  When the property is
no function nothing happens after the target is resolved: the world and the
trace are those of the resolution (no conversion of the context, no call, no
diagnostics). -/
theorem setWindow_dispatch (K : Symbols) (T : TypeConverter) (E : Engine) (w : World)
    (javaKrollWindow ptr javaWindow target : Nat) (t0 : List Event)
    (hres : resolve T w ptr javaKrollWindow = .ok (target, t0)) :
    ∃ out, nativeSetWindow K T E w javaKrollWindow ptr javaWindow = .ok out ∧
      (calls out.trace ≠ [] ↔
        isFunction w (get K w target (.string "setWindow")) = true ∧
        T.javaObjectToJsValue javaWindow ≠ .null) ∧
      (∀ f, get K w target (.string "setWindow") = .object f →
        isFunction w (.object f) = true → T.javaObjectToJsValue javaWindow ≠ .null →
        calls out.trace = [(f, .object target, [T.javaObjectToJsValue javaWindow], w)] ∧
        out.world = (E.call f (.object target) [T.javaObjectToJsValue javaWindow] w).2 ∧
        (∀ e, (E.call f (.object target) [T.javaObjectToJsValue javaWindow] w).1 = .threw e →
          diagnostics out.trace = [.openJSErrorDialog e, .reportException e]) ∧
        ((∀ e, (E.call f (.object target) [T.javaObjectToJsValue javaWindow] w).1 ≠ .threw e) →
          diagnostics out.trace = [])) ∧
      (calls out.trace = [] → out.world = w ∧ diagnostics out.trace = []) ∧
      (isFunction w (get K w target (.string "setWindow")) = false →
        out.world = w ∧
        out.trace = if ptr = 0 then [.javaObjectToJsValue javaKrollWindow] else []) := by
  obtain ⟨c0, d0⟩ := resolve_trace T w ptr javaKrollWindow target t0 hres
  have ht0 : t0 = if ptr = 0 then [.javaObjectToJsValue javaKrollWindow] else [] := by
    obtain ⟨_, h1, h2⟩ := resolve_ok T w ptr javaKrollWindow target t0 hres
    by_cases hp : ptr = 0
    · simp only [hp, if_true]
      exact (h2 hp).2
    · simp only [hp, if_false]
      exact (h1 hp).2
  by_cases hc : isFunction w (get K w target (.string "setWindow")) = true
  · obtain ⟨f, hf⟩ := isFunction_object w _ hc
    have hfn : isFunction w (.object f) = true := hf ▸ hc
    have hfn2 : ¬ isFunction w (.object f) = false := by simp [hfn]
    simp only [nativeSetWindow, hres, hf, hfn2, hfn, asObject_function w f hfn, bind, Except.bind,
      pure, Except.pure, if_false]
    by_cases hn : T.javaObjectToJsValue javaWindow = .null
    · simp only [hn, ne_eq, not_true_eq_false, if_false]
      refine ⟨_, rfl, ?_, ?_, ?_, ?_⟩
      · simp [calls_append, c0, calls]
      · intro g _ _ h
        exact h.elim
      · intro _
        exact ⟨rfl, by simp [diagnostics_append, d0, diagnostics]⟩
      · intro h
        cases h
    · simp only [hn, ne_eq, not_false_eq_true, if_true]
      cases hr : (E.call f (.object target) [T.javaObjectToJsValue javaWindow] w).1 with
      | threw e =>
        refine ⟨_, rfl, ?_, ?_, ?_, ?_⟩
        · simp [calls_append, c0, calls]
        · intro g hg _ _
          cases hg
          refine ⟨by simp [calls_append, c0, calls], rfl, ?_, ?_⟩
          · intro e1 he1
            rw [hr] at he1
            cases he1
            simp [diagnostics_append, d0, diagnostics]
          · intro hno
            exact absurd hr (hno e)
        · intro h
          simp [calls_append, c0, calls] at h
        · intro h
          cases h
      | empty =>
        refine ⟨_, rfl, ?_, ?_, ?_, ?_⟩
        · simp [calls_append, c0, calls]
        · intro g hg _ _
          cases hg
          refine ⟨by simp [calls_append, c0, calls], rfl, ?_, ?_⟩
          · intro e1 he1
            rw [hr] at he1
            cases he1
          · intro _
            simp [diagnostics_append, d0, diagnostics]
        · intro h
          simp [calls_append, c0, calls] at h
        · intro h
          cases h
      | returned v =>
        refine ⟨_, rfl, ?_, ?_, ?_, ?_⟩
        · simp [calls_append, c0, calls]
        · intro g hg _ _
          cases hg
          refine ⟨by simp [calls_append, c0, calls], rfl, ?_, ?_⟩
          · intro e1 he1
            rw [hr] at he1
            cases he1
          · intro _
            simp [diagnostics_append, d0, diagnostics]
        · intro h
          simp [calls_append, c0, calls] at h
        · intro h
          cases h
  · have habs : isFunction w (get K w target (.string "setWindow")) = false := by
      cases h : isFunction w (get K w target (.string "setWindow"))
      · rfl
      · exact absurd h hc
    simp only [nativeSetWindow, hres, habs, bind, Except.bind, pure, Except.pure, if_true]
    refine ⟨_, rfl, ?_, ?_, ?_, ?_⟩
    · simp [c0]
    · intro g hg hfn _
      rw [hg, hfn] at habs
      cases habs
    · intro _
      exact ⟨rfl, d0⟩
    · intro _
      exact ⟨rfl, ht0⟩

/-! ## Property bridge -/

theorem dataOf_some (w : World) (id : Nat) (key : Name) (v : JsValue)
    (h : dataOf w id key = some v) : find key (slotsOf w id) = some (.data v) := by
  unfold dataOf at h
  split at h
  · rename_i x hx
    cases h
    exact hx
  · cases h

/-- The world `nativeSetProperty` leaves: the accessor pair on `name` of the
object, and `value` under `name` in the companion map. -/
theorem nativeSetProperty_spec (K : Symbols) (T : TypeConverter) (w : World)
    (object ptr o c : Nat) (t0 : List Event) (name : String) (value : Nat)
    (hres : resolve T w ptr object = .ok (o, t0))
    (hcomp : Companion K w o c) :
    nativeSetProperty K T w object ptr name value =
      .ok { ret := (),
            world := storeData (setAccessor w o (.string name)) c (.string name)
              (T.javaObjectToJsValue value),
            trace := t0 ++ [.javaObjectToJsValue value] } := by
  obtain ⟨hslot, hne, hplain⟩ := hcomp
  have hget : get K w o K.propertiesSymbol = .object c := by
    simp only [get, dataOf_some w o _ _ hslot]
  have hobj : asObject w (.object c) = .ok c := by
    obtain ⟨x, hx, _⟩ := hplain
    simp only [asObject, hx]
  have hplain1 : PlainAt (setAccessor w o (.string name)) c :=
    plainAt_mapSlots_ne w c o _ hne hplain
  simp only [nativeSetProperty, hres, hget, hobj, set_plain _ c _ _ hplain1, bind, Except.bind,
    pure, Except.pure, List.append_nil]

theorem slotsOf_setProperty_object (w : World) (o c : Nat) (x : JsObject) (name : Name)
    (v : JsValue) (ho : find o w.heap = some x) (hne : c ≠ o) :
    slotsOf (storeData (setAccessor w o name) c name v) o = store name .accessor (slotsOf w o) := by
  have h1 : slotsOf (storeData (setAccessor w o name) c name v) o =
      slotsOf (setAccessor w o name) o :=
    slotsOf_mapSlots_ne (setAccessor w o name) o c _ (fun e => hne e.symm)
  rw [h1]
  exact slotsOf_mapSlots_self w o x _ ho

theorem slotsOf_setProperty_companion (w : World) (o c : Nat) (name : Name) (v : JsValue)
    (hplain : PlainAt w c) (hne : c ≠ o) :
    slotsOf (storeData (setAccessor w o name) c name v) c =
      store name (.data v) (slotsOf w c) := by
  obtain ⟨x, hx, _⟩ := plainAt_mapSlots_ne w c o (store name .accessor) hne hplain
  have h1 : slotsOf (storeData (setAccessor w o name) c name v) c =
      store name (.data v) (slotsOf (setAccessor w o name) c) :=
    slotsOf_mapSlots_self (setAccessor w o name) c x _ hx
  rw [h1]
  exact congrArg _ (slotsOf_mapSlots_ne w c o _ hne)

theorem slotsOf_setProperty_other (w : World) (o c i : Nat) (name : Name) (v : JsValue)
    (hio : i ≠ o) (hic : i ≠ c) :
    slotsOf (storeData (setAccessor w o name) c name v) i = slotsOf w i := by
  have h1 : slotsOf (storeData (setAccessor w o name) c name v) i =
      slotsOf (setAccessor w o name) i := slotsOf_mapSlots_ne (setAccessor w o name) i c _ hic
  rw [h1]
  exact slotsOf_mapSlots_ne w i o _ hio

theorem find_setProperty_other (w : World) (o c i : Nat) (name : Name) (v : JsValue)
    (hic : i ≠ c) :
    find i (storeData (setAccessor w o name) c name v).heap =
      (find i w.heap).map fun x =>
        if i = o then { x with slots := store name .accessor x.slots } else x := by
  simp only [storeData, setAccessor, find_mapSlots, hic, if_false, Option.map_map]
  cases find i w.heap <;> simp

theorem resolve_setProperty (T : TypeConverter) (w : World) (o c ptr object : Nat) (name : Name)
    (v : JsValue) :
    resolve T (storeData (setAccessor w o name) c name v) ptr object = resolve T w ptr object := by
  have h1 := resolve_mapSlots T (setAccessor w o name) c (store name (.data v)) ptr object
  have h2 := resolve_mapSlots T w o (store name .accessor) ptr object
  exact h1.trans h2

theorem companion_setProperty (K : Symbols) (w : World) (o c : Nat) (x : JsObject)
    (name : String) (v : JsValue) (ho : find o w.heap = some x) (hcomp : Companion K w o c)
    (hname : Name.string name ≠ K.propertiesSymbol) :
    Companion K (storeData (setAccessor w o (.string name)) c (.string name) v) o c := by
  obtain ⟨hslot, hne, hplain⟩ := hcomp
  refine ⟨?_, hne, ?_⟩
  · have hs := dataOf_some w o _ _ hslot
    simp only [dataOf, slotsOf_setProperty_object w o c x _ v ho hne,
      find_store_ne _ _ _ _ (fun e => hname e.symm), hs]
  · exact plainAt_storeData _ c _ v (plainAt_mapSlots_ne w c o _ hne hplain)

theorem setProperties_spec (K : Symbols) (T : TypeConverter) (object ptr o c : Nat)
    (t0 : List Event) (prior : List (String × Nat))
    (hprior : ∀ e ∈ prior, Name.string e.1 ≠ K.propertiesSymbol) :
    ∀ w, resolve T w ptr object = .ok (o, t0) → Companion K w o c →
      ∃ w1, setProperties K T w object ptr prior = .ok w1 ∧
        resolve T w1 ptr object = .ok (o, t0) ∧ Companion K w1 o c := by
  induction prior with
  | nil =>
    intro w hres hcomp
    exact ⟨w, rfl, hres, hcomp⟩
  | cons e rest ih =>
    obtain ⟨name, value⟩ := e
    intro w hres hcomp
    obtain ⟨⟨x, hx⟩, _⟩ := resolve_ok T w ptr object o t0 hres
    have hname : Name.string name ≠ K.propertiesSymbol := hprior (name, value) (List.mem_cons_self _ _)
    have hrest : ∀ e ∈ rest, Name.string e.1 ≠ K.propertiesSymbol :=
      fun e he => hprior e (List.mem_cons_of_mem _ he)
    obtain ⟨w1, h1, h2, h3⟩ := ih hrest
      (storeData (setAccessor w o (.string name)) c (.string name) (T.javaObjectToJsValue value))
      ((resolve_setProperty T w o c ptr object _ _).trans hres)
      (companion_setProperty K w o c x name _ hx hcomp hname)
    refine ⟨w1, ?_, h2, h3⟩
    simp only [setProperties, nativeSetProperty_spec K T w object ptr o c t0 name value hres hcomp,
      bind, Except.bind]
    exact h1

/-- C7 (as amended): on a script object that keeps a companion map, after any
run of setProperty calls on it, setProperty(target, p, v) leaves the accessor
pair on `p`, reading `p` through that accessor gives `v`, the companion map
holds `v` under `p`, and its entries under other names are as before the call,
provided `p` and the names set before are not the key under which the object
keeps the companion map itself (`Proxy::propertiesSymbol`). -/
theorem setProperty_roundtrip (K : Symbols) (T : TypeConverter) (w : World)
    (object ptr o c : Nat) (t0 : List Event) (prior : List (String × Nat)) (p : String) (v : Nat)
    (hres : resolve T w ptr object = .ok (o, t0))
    (hcomp : Companion K w o c)
    (hprior : ∀ e ∈ prior, Name.string e.1 ≠ K.propertiesSymbol)
    (hp : Name.string p ≠ K.propertiesSymbol) :
    ∃ w1 out, setProperties K T w object ptr prior = .ok w1 ∧
      nativeSetProperty K T w1 object ptr p v = .ok out ∧
      find (.string p) (slotsOf out.world o) = some .accessor ∧
      get K out.world o (.string p) = T.javaObjectToJsValue v ∧
      dataOf out.world o K.propertiesSymbol = some (.object c) ∧
      dataOf out.world c (.string p) = some (T.javaObjectToJsValue v) ∧
      ∀ q, q ≠ Name.string p → find q (slotsOf out.world c) = find q (slotsOf w1 c) := by
  obtain ⟨w1, hrun, hres1, hcomp1⟩ := setProperties_spec K T object ptr o c t0 prior hprior w hres hcomp
  obtain ⟨⟨x, hx⟩, _⟩ := resolve_ok T w1 ptr object o t0 hres1
  have hcomp2 := companion_setProperty K w1 o c x p (T.javaObjectToJsValue v) hx hcomp1 hp
  obtain ⟨_, hne, hplain⟩ := hcomp1
  have hacc : find (.string p) (slotsOf (storeData (setAccessor w1 o (.string p)) c (.string p)
      (T.javaObjectToJsValue v)) o) = some .accessor := by
    rw [slotsOf_setProperty_object w1 o c x _ _ hx hne, find_store_self]
  have hdata : dataOf (storeData (setAccessor w1 o (.string p)) c (.string p)
      (T.javaObjectToJsValue v)) c (.string p) = some (T.javaObjectToJsValue v) :=
    dataOf_storeData_self _ c _ _ (plainAt_mapSlots_ne w1 c o _ hne hplain)
  refine ⟨w1, _, hrun, nativeSetProperty_spec K T w1 object ptr o c t0 p v hres1 ⟨‹_›, hne, hplain⟩,
    hacc, ?_, hcomp2.1, hdata, ?_⟩
  · simp only [get, hacc, getProperty, hcomp2.1, hdata, Option.getD]
  · intro q hq
    rw [slotsOf_setProperty_companion w1 o c _ _ hplain hne, find_store_ne _ _ _ _ hq]

/-- C8 (as amended): on a script object that keeps a companion map, for a name
`p` that is not the key under which the object keeps the companion map itself,
setProperty(target, p, v1) followed by setProperty(target, p, v2) leaves
exactly one slot for `p` on the object, the accessor pair, and exactly one
entry for `p` in the companion map, holding `v2`.  The second call changes
nothing but that entry: every object other than the companion map, the target
included, is what the first call left, and so are the other entries of the
companion map. -/
theorem setProperty_twice (K : Symbols) (T : TypeConverter) (w : World)
    (object ptr o c : Nat) (t0 : List Event) (p : String) (v1 v2 : Nat)
    (hres : resolve T w ptr object = .ok (o, t0))
    (hcomp : Companion K w o c)
    (hp : Name.string p ≠ K.propertiesSymbol) :
    ∃ out1 out2, nativeSetProperty K T w object ptr p v1 = .ok out1 ∧
      nativeSetProperty K T out1.world object ptr p v2 = .ok out2 ∧
      entries (.string p) (slotsOf out2.world o) = 1 ∧
      find (.string p) (slotsOf out2.world o) = some .accessor ∧
      entries (.string p) (slotsOf out2.world c) = 1 ∧
      dataOf out2.world c (.string p) = some (T.javaObjectToJsValue v2) ∧
      (∀ i, i ≠ c → find i out2.world.heap = find i out1.world.heap) ∧
      (∀ q, q ≠ Name.string p → find q (slotsOf out2.world c) = find q (slotsOf out1.world c)) ∧
      out2.world.proxies = out1.world.proxies := by
  obtain ⟨⟨x, hx⟩, _⟩ := resolve_ok T w ptr object o t0 hres
  have hcomp1 := companion_setProperty K w o c x p (T.javaObjectToJsValue v1) hx hcomp hp
  have hres1 := (resolve_setProperty T w o c ptr object (.string p) (T.javaObjectToJsValue v1)).trans hres
  obtain ⟨⟨x1, hx1⟩, _⟩ := resolve_ok T _ ptr object o t0 hres1
  obtain ⟨_, hne, hplain⟩ := hcomp
  have hplain1 := hcomp1.2.2
  have hobj1 := slotsOf_setProperty_object w o c x (.string p) (T.javaObjectToJsValue v1) hx hne
  have hobj2 := slotsOf_setProperty_object _ o c x1 (.string p) (T.javaObjectToJsValue v2) hx1 hne
  have hcm2 := slotsOf_setProperty_companion _ o c (.string p) (T.javaObjectToJsValue v2) hplain1 hne
  refine ⟨_, _, nativeSetProperty_spec K T w object ptr o c t0 p v1 hres ⟨‹_›, hne, hplain⟩,
    nativeSetProperty_spec K T _ object ptr o c t0 p v2 hres1 hcomp1, ?_, ?_, ?_, ?_, ?_, ?_, rfl⟩
  · rw [hobj2, entries_store_self]
  · rw [hobj2, find_store_self]
  · rw [hcm2, entries_store_self]
  · exact dataOf_storeData_self _ c _ _ (plainAt_mapSlots_ne _ c o _ hne hplain1)
  · intro i hi
    rw [find_setProperty_other _ o c i _ _ hi]
    by_cases hio : i = o
    · subst hio
      have hs : x1.slots = store (Name.string p) Slot.accessor (slotsOf w i) := by
        have h := hobj1
        simp only [slotsOf, hx1] at h
        exact h
      simp only [hx1, Option.map_some', if_true, hs, store_store]
      rw [← hs]
    · cases find i (storeData (setAccessor w o (.string p)) c (.string p)
          (T.javaObjectToJsValue v1)).heap <;> simp [hio]
  · intro q hq
    rw [hcm2, find_store_ne _ _ _ _ hq]

/-! ## Release -/

/-- C3: for a non-zero handle `h` of a live proxy whose detached flag is set,
release returns true and destroys the proxy: afterwards `h` is not live and
resolving it fails. -/
theorem release_detached_destroys (w : World) (h : Nat) (proxy : Proxy) (hnz : h ≠ 0)
    (hlive : find h w.proxies = some proxy) (hdet : proxy.detached = true) :
    ∃ out, nativeRelease w h = .ok out ∧ out.ret = true ∧
      find h out.world.proxies = none ∧
      deref out.world h = .error (.invalidPointer h) := by
  refine ⟨{ ret := true, world := delete w h, trace := [] }, ?_, rfl, ?_, ?_⟩
  · simp [nativeRelease, deref, hnz, hlive, hdet, bind, Except.bind, pure, Except.pure]
  · simp [delete, find_remove_self]
  · simp [deref, hnz, delete, find_remove_self]

/-- C4: for the zero handle, and for a non-zero handle of a live proxy whose
detached flag is not set, release returns false and leaves the world (the
proxy table and the heap) exactly as it was. -/
theorem release_attached_noop (w : World) (h : Nat)
    (hcase : h = 0 ∨ ∃ proxy, find h w.proxies = some proxy ∧ proxy.detached = false) :
    ∃ out, nativeRelease w h = .ok out ∧ out.ret = false ∧ out.world = w ∧
      out.trace = [] := by
  refine ⟨{ ret := false, world := w, trace := [] }, ?_, rfl, rfl, rfl⟩
  rcases hcase with h0 | ⟨proxy, hlive, hatt⟩
  · simp [nativeRelease, h0, pure, Except.pure]
  · by_cases hz : h = 0
    · simp [nativeRelease, hz, pure, Except.pure]
    · simp [nativeRelease, deref, hz, hlive, hatt, bind, Except.bind, pure, Except.pure]

/-- C5 (as amended): after release has destroyed the detached proxy at `h`, a
second release of `h` dereferences a proxy that is no longer live; the second
call has no defined result and in particular does not return false. -/
theorem release_twice_faults (w : World) (h : Nat) (proxy : Proxy) (hnz : h ≠ 0)
    (hlive : find h w.proxies = some proxy) (hdet : proxy.detached = true) :
    ∃ out, nativeRelease w h = .ok out ∧ out.ret = true ∧
      nativeRelease out.world h = .error (.invalidPointer h) := by
  refine ⟨{ ret := true, world := delete w h, trace := [] }, ?_, rfl, ?_⟩
  · simp [nativeRelease, deref, hnz, hlive, hdet, bind, Except.bind, pure, Except.pure]
  · simp [nativeRelease, deref, hnz, delete, find_remove_self, bind, Except.bind]

/-! ## The theorems at the sample world -/

theorem companion_sample : Companion sampleSymbols sampleWorld 2 4 :=
  ⟨rfl, by decide, ⟨{ isFunction := false, slots := [] }, rfl, by simp⟩⟩

/-- Witness of C1: the sample emitter has a callable "emit" that returns true,
and fireEvent returns true. -/
theorem fireEvent_true_iff_witness :
    ∃ out, nativeFireEvent sampleSymbols sampleConverter sampleEngine sampleWorld
        100 16 0 0 "click" 50 true false 0 none = .ok out ∧ out.ret = true := by
  obtain ⟨out, h, hiff, _⟩ := fireEvent_true_iff sampleSymbols sampleConverter sampleEngine
    sampleWorld 100 16 0 0 "click" 50 true false 0 none 2 2 [] [] rfl (fun _ => rfl)
  exact ⟨out, h, hiff.mpr ⟨3, rfl, rfl, rfl⟩⟩

/-- Counterexample to C2: with reportSuccess unset, code 0 and no error message,
the payload still has the keys `success`, `code` and `error`, taken from the
user data. -/
theorem fireEvent_payload_status_counterexample :
    ∃ out jsData wc, nativeFireEvent sampleSymbols sampleConverter sampleEngine sampleWorld
        100 16 0 0 "click" 50 true false 0 none = .ok out ∧
      calls out.trace = [(3, .object 2, [.string "click", .object jsData], wc)] ∧
      ¬ (false = true ∨ (0 : Int) ≠ 0) ∧
      dataOf wc jsData (.string "success") = some (.string "yes") ∧
      dataOf wc jsData (.string "code") = some (.number 7) ∧
      dataOf wc jsData (.string "error") = some (.string "stale") :=
  ⟨_, _, _, rfl, rfl, by decide, rfl, rfl, rfl⟩

/-- Witness of C2 (as amended): at the sample emitter with reportSuccess set
and an error message, the payload carries `success`, `code` and `error`. -/
theorem fireEvent_payload_status_witness :
    ∃ out jsData wc, nativeFireEvent sampleSymbols sampleConverter sampleEngine sampleWorld
        100 16 0 0 "click" 50 true true 0 (some "lost") = .ok out ∧
      calls out.trace = [(3, .object 2, [.string "click", .object jsData], wc)] ∧
      dataOf wc jsData (.string "success") = some (.bool true) ∧
      dataOf wc jsData (.string "code") = some (.number 0) ∧
      dataOf wc jsData (.string "error") = some (.string "lost") := by
  obtain ⟨out, jsData, wc, h, hc, hyes, _, herr, _⟩ := fireEvent_payload_status sampleSymbols
    sampleConverter sampleEngine sampleWorld 100 16 0 0 "click" 50 true true 0 (some "lost")
    2 3 2 [] [] rfl rfl rfl rfl
  exact ⟨out, jsData, wc, h, hc, (hyes (Or.inl rfl)).1, (hyes (Or.inl rfl)).2, herr "lost" rfl⟩

/-- Counterexample to C10: with reportSuccess set, the user field `success`
(neither `bubbles` nor `source`) is not left unchanged. -/
theorem fireEvent_payload_source_counterexample :
    ∃ out jsData wc, nativeFireEvent sampleSymbols sampleConverter sampleEngine sampleWorld
        100 16 0 0 "click" 50 true true 0 none = .ok out ∧
      calls out.trace = [(3, .object 2, [.string "click", .object jsData], wc)] ∧
      userField sampleConverter 50 "success" = some (.string "yes") ∧
      dataOf wc jsData (.string "success") = some (.bool true) :=
  ⟨_, _, _, rfl, rfl, rfl, rfl⟩

/-- Witness of C10 (as amended): at the sample emitter with no distinct source,
the payload has the bubble flag and the emitter as source, and the user field
`foo` is unchanged. -/
theorem fireEvent_payload_source_witness :
    ∃ out jsData wc, nativeFireEvent sampleSymbols sampleConverter sampleEngine sampleWorld
        100 16 0 0 "click" 50 true true 0 none = .ok out ∧
      calls out.trace = [(3, .object 2, [.string "click", .object jsData], wc)] ∧
      dataOf wc jsData (.string "bubbles") = some (.bool true) ∧
      dataOf wc jsData (.string "source") = some (.object 2) ∧
      dataOf wc jsData (.string "foo") = some (.number 1) := by
  obtain ⟨out, jsData, wc, h, hc, hb, hs, _, _, _, hother⟩ := fireEvent_payload_source
    sampleSymbols sampleConverter sampleEngine sampleWorld 100 16 0 0 "click" 50 true true 0 none
    2 3 2 [] [] rfl rfl rfl rfl
  exact ⟨out, jsData, wc, h, hc, hb, hs,
    hother "foo" (by decide) (by decide) (by decide) (by decide)⟩

/-- Witness of C6: the sample function `fail` throws; callProperty returns the
undefined sentinel and uses the diagnostic channel once. -/
theorem callProperty_exception_witness :
    ∃ out, nativeCallProperty sampleSymbols sampleConverter sampleEngine sampleWorld
        16 "fail" (some [7]) = .ok out ∧
      out.ret = 1 ∧
      diagnostics out.trace =
        [.openJSErrorDialog (.string "boom"), .reportException (.string "boom")] := by
  obtain ⟨out, h, _, _, hthrow, _⟩ := callProperty_exception sampleSymbols sampleConverter
    sampleEngine sampleWorld 16 "fail" (some [7]) { jsObject := 2, detached := false }
    { isFunction := false,
      slots := [(.string "_properties", .data (.object 4)),
                (.string "emit", .data (.object 3)),
                (.string "setWindow", .data (.object 3)),
                (.string "fail", .data (.object 5))] }
    5 [.number 7] (by decide) rfl rfl rfl rfl rfl
  exact ⟨out, h, (hthrow (.string "boom") rfl).1, (hthrow (.string "boom") rfl).2⟩

/-- Witness of C9: the sample target has a callable "setWindow"; a context that
converts to a number is passed to it in one call. -/
theorem setWindow_dispatch_witness :
    ∃ out, nativeSetWindow sampleSymbols sampleConverter sampleEngine sampleWorld 100 16 7 =
        .ok out ∧
      calls out.trace = [(3, .object 2, [.number 7], sampleWorld)] ∧
      diagnostics out.trace = [] := by
  obtain ⟨out, h, _, hcall, _⟩ := setWindow_dispatch sampleSymbols sampleConverter sampleEngine
    sampleWorld 100 16 7 2 [] rfl
  obtain ⟨hc, _, _, hd⟩ := hcall 3 rfl rfl (by decide)
  exact ⟨out, h, hc, hd (fun e he => by cases he)⟩

/-- Counterexample to C7: the sample object keeps its companion map under the
name "_properties".  After setProperty(target, "_properties", 9) that slot is
the accessor pair, the object has lost its companion map, reading the
property gives undefined, not 9, and a following setProperty(target, "x", 9)
finds no companion map to cast and has no defined result. -/
theorem setProperty_roundtrip_counterexample :
    ∃ out, nativeSetProperty sampleSymbols sampleConverter sampleWorld 100 16 "_properties" 9 =
        .ok out ∧
      sampleConverter.javaObjectToJsValue 9 = .number 9 ∧
      find (.string "_properties") (slotsOf out.world 2) = some .accessor ∧
      dataOf out.world 2 sampleSymbols.propertiesSymbol = none ∧
      get sampleSymbols out.world 2 (.string "_properties") = .undefined ∧
      nativeSetProperty sampleSymbols sampleConverter out.world 100 16 "x" 9 =
        .error (.invalidCast .undefined) :=
  ⟨_, rfl, rfl, rfl, rfl, rfl, rfl⟩

/-- Counterexample to C8: the sample object keeps its companion map under the
name "_properties".  After setProperty(target, "_properties", 7) the second
call setProperty(target, "_properties", 9) finds no companion map to cast and
has no defined result. -/
theorem setProperty_twice_counterexample :
    ∃ out1, nativeSetProperty sampleSymbols sampleConverter sampleWorld 100 16 "_properties" 7 =
        .ok out1 ∧
      nativeSetProperty sampleSymbols sampleConverter out1.world 100 16 "_properties" 9 =
        .error (.invalidCast .undefined) :=
  ⟨_, rfl, rfl⟩

/-- Witness of C7 (as amended): on the sample object, after setting `x` and `y`, setting `x`
to 9 and reading it gives 9. -/
theorem setProperty_roundtrip_witness :
    ∃ w1 out, setProperties sampleSymbols sampleConverter sampleWorld 100 16 [("x", 7), ("y", 8)] =
        .ok w1 ∧
      nativeSetProperty sampleSymbols sampleConverter w1 100 16 "x" 9 = .ok out ∧
      get sampleSymbols out.world 2 (.string "x") = .number 9 := by
  obtain ⟨w1, out, h1, h2, _, hget, _⟩ := setProperty_roundtrip sampleSymbols sampleConverter
    sampleWorld 100 16 2 4 [] [("x", 7), ("y", 8)] "x" 9 rfl companion_sample
    (by decide) (by decide)
  exact ⟨w1, out, h1, h2, hget⟩

/-- Witness of C8 (as amended): on the sample object, setting `x` twice leaves one accessor
slot and one companion entry for `x`. -/
theorem setProperty_twice_witness :
    ∃ out1 out2, nativeSetProperty sampleSymbols sampleConverter sampleWorld 100 16 "x" 7 =
        .ok out1 ∧
      nativeSetProperty sampleSymbols sampleConverter out1.world 100 16 "x" 9 = .ok out2 ∧
      entries (.string "x") (slotsOf out2.world 2) = 1 ∧
      entries (.string "x") (slotsOf out2.world 4) = 1 ∧
      dataOf out2.world 4 (.string "x") = some (.number 9) := by
  obtain ⟨out1, out2, h1, h2, e1, _, e2, hd, _⟩ := setProperty_twice sampleSymbols sampleConverter
    sampleWorld 100 16 2 4 [] "x" 7 9 rfl companion_sample (by decide)
  exact ⟨out1, out2, h1, h2, e1, e2, hd⟩

/-- Witness of C3: the sample proxy at address 8 is detached; release destroys
it. -/
theorem release_detached_destroys_witness :
    ∃ out, nativeRelease sampleWorld 8 = .ok out ∧ out.ret = true ∧
      find 8 out.world.proxies = none ∧
      deref out.world 8 = .error (.invalidPointer 8) :=
  release_detached_destroys sampleWorld 8 { jsObject := 1, detached := true } (by decide) rfl rfl

/-- Witness of C4: the sample proxy at address 16 is attached; release leaves
the world as it is. -/
theorem release_attached_noop_witness :
    ∃ out, nativeRelease sampleWorld 16 = .ok out ∧ out.ret = false ∧ out.world = sampleWorld ∧
      out.trace = [] :=
  release_attached_noop sampleWorld 16 (Or.inr ⟨{ jsObject := 2, detached := false }, rfl, rfl⟩)

/-- Counterexample to C5: the first release of the sample proxy at address 8
returns true; the second does not return false, it has no result at all. -/
theorem release_twice_counterexample :
    ∃ out, nativeRelease sampleWorld 8 = .ok out ∧ out.ret = true ∧
      nativeRelease out.world 8 = .error (.invalidPointer 8) ∧
      ¬ ∃ out2, nativeRelease out.world 8 = .ok out2 :=
  ⟨_, rfl, rfl, rfl, fun ⟨_, h⟩ => by cases h⟩

/-- Witness of C5 (as amended): at the sample proxy at address 8 the second
release dereferences the destroyed proxy. -/
theorem release_twice_faults_witness :
    ∃ out, nativeRelease sampleWorld 8 = .ok out ∧ out.ret = true ∧
      nativeRelease out.world 8 = .error (.invalidPointer 8) :=
  release_twice_faults sampleWorld 8 { jsObject := 1, detached := true } (by decide) rfl rfl

end V8Object
